import Mathlib

/-!
Shallow embedding of the financial news / alerts server (Python sources under
`src/`).  Pure character-level string processing is modelled over `List Char`;
Python's ASCII-relevant behaviour of `str.upper`, `str.lower`, `str.strip`,
substring containment (`in`) and `re.findall(r'\b[A-Z]{1,5}\b', s)` is
reproduced faithfully for ASCII text (the repository only manipulates ASCII
queries, markers and vocabulary, apart from emoji that are copied verbatim).
-/

namespace FinMCP

/-- ASCII uppercase-letter test, the character class `[A-Z]` of the ticker
regex in `src/services/intent_parser.py`. -/
def isUpperChar (c : Char) : Bool := 'A' ≤ c && c ≤ 'Z'

/-- ASCII lowercase-letter test. -/
def isLowerChar (c : Char) : Bool := 'a' ≤ c && c ≤ 'z'

/-- ASCII digit test. -/
def isDigitChar (c : Char) : Bool := '0' ≤ c && c ≤ '9'

/-- Word character for Python's regex `\b` boundaries (ASCII fragment of
`\w`: letters, digits, underscore). -/
def isWordChar (c : Char) : Bool := isUpperChar c || isLowerChar c || isDigitChar c || c = '_'

/-- Python `str.upper` on a single ASCII character. -/
def pyUpperChar (c : Char) : Char := if isLowerChar c then Char.ofNat (c.toNat - 32) else c

/-- Python `str.lower` on a single ASCII character. -/
def pyLowerChar (c : Char) : Char := if isUpperChar c then Char.ofNat (c.toNat + 32) else c

/-- Python `str.upper` (ASCII model). -/
def pyUpper (s : String) : String := String.mk (s.toList.map pyUpperChar)

/-- Python `str.lower` (ASCII model). -/
def pyLower (s : String) : String := String.mk (s.toList.map pyLowerChar)

/-- The characters removed by Python `str.strip()` with no argument. -/
def isPySpace (c : Char) : Bool :=
  c = ' ' || c = '\t' || c = '\n' || c = '\r' || c = '\x0b' || c = '\x0c'

/-- Python `string.punctuation`. -/
def punctChars : List Char :=
  "!\"#$%&\x27()*+,-./:;<=>?@[\\]^_\x60\x7b|\x7d~".toList

/-- Remove the characters satisfying `p` from both ends of a list. -/
def stripWhile (p : Char → Bool) (l : List Char) : List Char :=
  ((l.dropWhile p).reverse.dropWhile p).reverse

/-- Python `s.strip()` (whitespace from both ends). -/
def pyStrip (s : String) : String := String.mk (stripWhile isPySpace s.toList)

/-- Python `s.strip(string.punctuation)`. -/
def pyStripPunct (s : String) : String :=
  String.mk (stripWhile (fun c => punctChars.contains c) s.toList)

/-- `isPrefixL p h` : `p` is a prefix of `h` (Boolean). -/
def isPrefixL : List Char → List Char → Bool
  | [], _ => true
  | _ :: _, [] => false
  | p :: ps, h :: hs => p = h && isPrefixL ps hs

/-- Python substring containment `pat in hay`. -/
def containsSub (pat : List Char) : List Char → Bool
  | [] => isPrefixL pat []
  | c :: t => isPrefixL pat (c :: t) || containsSub pat t

/-- Python `pat in hay` on `String`s. -/
def strIn (pat hay : String) : Bool := containsSub pat.toList hay.toList

/-- Python `hay.split(pat, 1)` when `pat` occurs: the part before the first
occurrence of `pat` and the part after it. `none` when `pat` is absent. -/
def splitFirstL (pat : List Char) : List Char → Option (List Char × List Char)
  | [] => if isPrefixL pat [] then some ([], []) else none
  | c :: t =>
    if isPrefixL pat (c :: t) then some ([], (c :: t).drop pat.length)
    else
      match splitFirstL pat t with
      | some (a, b) => some (c :: a, b)
      | none => none

/-! ### `src/services/summarizer.py` : `clean_sentiment` -/

/-- The cleaning pipeline applied by `clean_sentiment` before the table
lookup: `sentiment.strip().strip(string.punctuation).upper()`. -/
def cleanedOf (sentiment : String) : String := pyUpper (pyStripPunct (pyStrip sentiment))

/-- `clean_sentiment` from `src/services/summarizer.py`: clean the raw
sentiment text and map it through the synonym table, defaulting to
`"NEUTRAL"` (Python `dict.get(cleaned, "NEUTRAL")`). -/
def clean_sentiment (sentiment : String) : String :=
  if cleanedOf sentiment = "POSITIVE" then "POSITIVE"
  else if cleanedOf sentiment = "NEGATIVE" then "NEGATIVE"
  else if cleanedOf sentiment = "NEUTRAL" then "NEUTRAL"
  else if cleanedOf sentiment = "BULLISH" then "POSITIVE"
  else if cleanedOf sentiment = "BEARISH" then "NEGATIVE"
  else if cleanedOf sentiment = "MIXED" then "NEUTRAL"
  else "NEUTRAL"

/-! ### `src/services/intent_parser.py` : `extract_financial_entities`

`re.findall(r'\b[A-Z]{1,5}\b', query)` is embedded as a left-to-right scan.
At a position preceded by a non-word character (or the start), the regex
engine greedily takes up to five uppercase letters and backtracks until the
next position is a word boundary.  Since every shorter prefix of an
uppercase run is followed by an uppercase (word) character, a match succeeds
exactly when the full leading uppercase run has length 1..5 and is followed
by a non-word character or the end; otherwise the scan advances one
character. -/

/-- Length of the leading run of uppercase ASCII letters. -/
def upperRunLen : List Char → Nat
  | [] => 0
  | c :: t => if isUpperChar c then upperRunLen t + 1 else 0

/-- `\b` holds after the match: next character absent or a non-word char. -/
def boundaryAfter : List Char → Bool
  | [] => true
  | c :: _ => !isWordChar c

/-- One step of `re.findall(r'\b[A-Z]{1,5}\b', s)`, with `prevW` recording
whether the previous character was a word character (false at the start of
the string).  The first argument is fuel; since each step consumes at least
one character, fuel `s.length` is always sufficient, and `findTickers`
supplies exactly that. -/
def findTickersAux : Nat → Bool → List Char → List (List Char)
  | 0, _, _ => []
  | _ + 1, _, [] => []
  | fuel + 1, prevW, c :: t =>
    if !prevW && isUpperChar c && decide (upperRunLen (c :: t) ≤ 5)
        && boundaryAfter ((c :: t).drop (upperRunLen (c :: t))) then
      (c :: t).take (upperRunLen (c :: t))
        :: findTickersAux fuel true ((c :: t).drop (upperRunLen (c :: t)))
    else
      findTickersAux fuel (isWordChar c) t

/-- `re.findall(r'\b[A-Z]{1,5}\b', s)`. -/
def findTickers (l : List Char) : List (List Char) := findTickersAux l.length false l

/-- The parsed-query record returned by `extract_financial_entities`. -/
structure ParsedQuery where
  tickers : List String
  keywords : List String
deriving Repr, DecidableEq

/-- The fixed keyword vocabulary of `extract_financial_entities`. -/
def financialTerms : List String :=
  ["stock", "earnings", "market", "revenue", "forecast", "dividend", "split", "SEC", "inflation"]

/-- `extract_financial_entities` from `src/services/intent_parser.py`:
tickers are the `\b[A-Z]{1,5}\b` matches, keywords the vocabulary terms
contained (Python `term in query.lower()`) in the lowercased query. -/
def extract_financial_entities (query : String) : ParsedQuery :=
  { tickers := (findTickers query.toList).map String.mk
    keywords := financialTerms.filter (fun term => strIn term (pyLower query)) }

/-! ### `src/services/summarizer.py` : `summarize_articles`

The loop body's interaction with the Ollama HTTP endpoint is abstracted as
one `OllamaResult` per article: the request may time out, raise some other
exception, return a body that fails JSON decoding, or return a decoded body
whose `response` field is the given string (`.get('response', '')` folds an
absent field into `""`).  The final `json.dumps(summary_obj)` validation
cannot fail on a dict of three strings, so its `except` branch is dead and
the success branch (append `summary_obj`) is the translation. -/

/-- An article record; only `title` and `content` are read by the
summarizer. -/
structure Article where
  title : String
  content : String
deriving Repr, DecidableEq

/-- A summary record as built by `summarize_articles`. -/
structure Summary where
  title : String
  summary : String
  sentiment : String
deriving Repr, DecidableEq

/-- Outcome of the per-article call to the local generation service. -/
inductive OllamaResult where
  | timeout
  | exc (msg : String)
  | badJson
  | ok (response : String)
deriving Repr, DecidableEq

/-- The summary text and sentiment computed from one Ollama outcome,
following the branches of the loop body of `summarize_articles`. -/
def parseOllama (r : OllamaResult) : String × String :=
  match r with
  | .timeout => ("Error: Request timed out", "NEUTRAL")
  | .exc msg => ("Error: " ++ msg, "NEUTRAL")
  | .badJson => ("Error: Invalid response format", "NEUTRAL")
  | .ok resp =>
    if resp = "" then
      -- `raise ValueError("Empty response from Ollama")`, caught by the
      -- generic `except Exception` handler
      ("Error: Empty response from Ollama", "NEUTRAL")
    else if strIn "Summary:" resp && strIn "Sentiment:" resp then
      match splitFirstL "Summary:".toList resp.toList with
      | some (_, content) =>
        match splitFirstL "Sentiment:".toList content with
        | some (summaryPart, sentimentPart) =>
          (pyStrip (String.mk summaryPart), clean_sentiment (String.mk sentimentPart))
        | none =>
          -- "Sentiment:" occurred only before the first "Summary:", so the
          -- two-element tuple unpacking raises, caught by the inner handler
          (pyStrip resp, "NEUTRAL")
      | none => (pyStrip resp, "NEUTRAL")
    else
      (pyStrip resp, "NEUTRAL")

/-- One iteration of the `summarize_articles` loop: every branch appends a
dict whose `"title"` is `article["title"]`. -/
def summarize_one (article : Article) (r : OllamaResult) : Summary :=
  { title := article.title
    summary := (parseOllama r).1
    sentiment := (parseOllama r).2 }

/-- `summarize_articles`: the strictly sequential loop appending one summary
per article, with the per-article Ollama outcome supplied alongside each
article. -/
def summarize_articles (jobs : List (Article × OllamaResult)) : List Summary :=
  jobs.map (fun p => summarize_one p.1 p.2)

/-! ### `src/services/alerts.py`

The flattened rule dictionary produced by `load_alerts_config` is passed in
as an association list (`load_alerts_config` returns `{}` — here `[]` — when
the configuration file is missing or corrupt).  Prices and thresholds are
embedded as rationals; a JSON rule object stores each threshold under an
optional key.  `yf.Ticker(t).info` is abstracted as a per-ticker fetch
outcome.  The Telegram side effect at the end of `check_alerts` does not
change the returned list and is omitted. -/

/-- One rule object of the alerts configuration. -/
structure AlertRule where
  strong_buy : Option ℚ := none
  below : Option ℚ := none
  strong_sell : Option ℚ := none
  above : Option ℚ := none
  support_levels : Option (List ℚ) := none
  resistance_levels : Option (List ℚ) := none
  description : String := ""
deriving Repr, DecidableEq

/-- Rendering of a numeric value inside an f-string message.  The exact
Python `str(...)` rendering of the number is irrelevant to every claim
below; any injective-enough rendering serves. -/
def showMoney (q : ℚ) : String := toString q

/-- Dictionary lookup in the flattened rule configuration. -/
def lookupRule (config : List (String × AlertRule)) (t : String) : Option AlertRule :=
  (config.find? (fun p => p.1 = t)).map Prod.snd

/-- `"strong_buy" in rules and price <= rules["strong_buy"]`. -/
def firesLe (th : Option ℚ) (price : ℚ) : Bool :=
  match th with
  | some t => decide (price ≤ t)
  | none => false

/-- `"below" in rules and price < rules["below"]`. -/
def firesLt (th : Option ℚ) (price : ℚ) : Bool :=
  match th with
  | some t => decide (price < t)
  | none => false

/-- `"strong_sell" in rules and price >= rules["strong_sell"]`. -/
def firesGe (th : Option ℚ) (price : ℚ) : Bool :=
  match th with
  | some t => decide (t ≤ price)
  | none => false

/-- `"above" in rules and price > rules["above"]`. -/
def firesGt (th : Option ℚ) (price : ℚ) : Bool :=
  match th with
  | some t => decide (t < price)
  | none => false

/-- `msg += f"\nNote: {description}"` guarded by `if description:`. -/
def noteSuffix (desc : String) : String :=
  if desc = "" then "" else "\nNote: " ++ desc

/-- The strong-buy message of `check_alerts`. -/
def strongBuyMsg (ticker : String) (price sb : ℚ) (desc : String) : String :=
  "🟢 Strong Buy Signal: " ++ ticker ++ " at $" ++ showMoney price ++ "\n"
    ++ "• Price at/below strong buy level $" ++ showMoney sb ++ noteSuffix desc

/-- The buy message of `check_alerts`. -/
def buyMsg (ticker : String) (price b : ℚ) (desc : String) : String :=
  "🟢 Buy Signal: " ++ ticker ++ " at $" ++ showMoney price ++ "\n"
    ++ "• Price below buy threshold $" ++ showMoney b ++ noteSuffix desc

/-- The strong-sell message of `check_alerts`. -/
def strongSellMsg (ticker : String) (price ss : ℚ) (desc : String) : String :=
  "🔴 Strong Sell Signal: " ++ ticker ++ " at $" ++ showMoney price ++ "\n"
    ++ "• Price at/above strong sell level $" ++ showMoney ss ++ noteSuffix desc

/-- The sell message of `check_alerts`. -/
def sellMsg (ticker : String) (price a : ℚ) (desc : String) : String :=
  "🔴 Sell Signal: " ++ ticker ++ " at $" ++ showMoney price ++ "\n"
    ++ "• Price above sell threshold $" ++ showMoney a ++ noteSuffix desc

/-- The no-signal message of `check_alerts` for an explicitly requested
ticker. -/
def noSignalMsg (ticker : String) (price : ℚ) (desc : String) : String :=
  "ℹ️ " ++ ticker ++ " at $" ++ showMoney price ++ " - No trading signals triggered"
    ++ noteSuffix desc

/-- Outcome of `yf.Ticker(t).info.get("regularMarketPrice")` inside
`check_alerts`: the lookup may raise, or produce an optional price. -/
inductive FetchRes where
  | exc (msg : String)
  | info (price : Option ℚ)
deriving Repr, DecidableEq

/-- Python truthiness of the optional `tickers` argument: `None` and `[]`
are falsy. -/
def listTruthy : Option (List String) → Bool
  | some (_ :: _) => true
  | _ => false

/-- Python truthiness of the fetched price (`if price:`): `None` and `0`
are falsy. -/
def priceTruthy : Option ℚ → Bool
  | some p => decide (p ≠ 0)
  | none => false

/-- The if/elif signal chain of `check_alerts` for one ticker with a truthy
price. -/
def tickerSignals (ticker : String) (rules : AlertRule) (price : ℚ)
    (requestedTruthy : Bool) : List String :=
  if firesLe rules.strong_buy price then
    [strongBuyMsg ticker price (rules.strong_buy.getD 0) rules.description]
  else if firesLt rules.below price then
    [buyMsg ticker price (rules.below.getD 0) rules.description]
  else if firesGe rules.strong_sell price then
    [strongSellMsg ticker price (rules.strong_sell.getD 0) rules.description]
  else if firesGt rules.above price then
    [sellMsg ticker price (rules.above.getD 0) rules.description]
  else if requestedTruthy then
    [noSignalMsg ticker price rules.description]
  else
    []

/-- One iteration of the `check_alerts` loop (the whole body sits in a
per-ticker `try/except`). -/
def checkAlertsTicker (config : List (String × AlertRule)) (requestedTruthy : Bool)
    (fetch : String → FetchRes) (ticker : String) : List String :=
  match lookupRule config ticker with
  | none =>
    if requestedTruthy then ["⚠️ No configuration found for " ++ ticker] else []
  | some rules =>
    match fetch ticker with
    | .exc msg =>
      if requestedTruthy then ["⚠️ Error checking " ++ ticker ++ ": " ++ msg] else []
    | .info priceOpt =>
      if priceTruthy priceOpt then
        tickerSignals ticker rules (priceOpt.getD 0) requestedTruthy
      else
        []

/-- The message returned when `load_alerts_config()` yields an empty rule
set. -/
def configErrorMsg : String := "⚠️ Error: Could not load alerts configuration"

/-- `check_alerts` from `src/services/alerts.py`. -/
def check_alerts (requested : Option (List String)) (config : List (String × AlertRule))
    (fetch : String → FetchRes) : List String :=
  if config = [] then [configErrorMsg]
  else
    let req := listTruthy requested
    let checkList := if req then requested.getD [] else config.map Prod.fst
    (checkList.map (checkAlertsTicker config req fetch)).flatten

/-! #### `check_trading_opportunities`

The buy-side check is `price <= rules.get("strong_buy", float('inf'))`:
when `"strong_buy"` is absent the comparison against `inf` is true, the
first message is appended, and the f-string of the second message evaluates
`rules['strong_buy']`, raising `KeyError('strong_buy')`; the exception
escapes to the outer handler, discarding the partially built list.  The
same happens with `below` (default `inf`), and on the sell side with
`strong_sell` / `above` (default `-inf`, so `price >= -inf` is always
true).  `Except` carries the missing key. -/

/-- Python `str(KeyError(k))`, which renders the key in single quotes. -/
def pyKeyErrorStr (key : String) : String := "\x27" ++ key ++ "\x27"

/-- The buy-side block of `check_trading_opportunities`. -/
def buySideOps (ticker : String) (rules : AlertRule) (price : ℚ) :
    Except String (List String) :=
  match rules.strong_buy with
  | some sb =>
    if price ≤ sb then
      .ok ["🟢 Strong Buy Signal for " ++ ticker ++ " at $" ++ showMoney price,
           "• Price at/below strong buy level $" ++ showMoney sb]
    else
      match rules.below with
      | some b =>
        if price ≤ b then
          .ok ["🟢 Buy Signal for " ++ ticker ++ " at $" ++ showMoney price,
               "• Price below buy threshold $" ++ showMoney b]
        else .ok []
      | none => .error "below"
  | none => .error "strong_buy"

/-- The sell-side block of `check_trading_opportunities`. -/
def sellSideOps (ticker : String) (rules : AlertRule) (price : ℚ) :
    Except String (List String) :=
  match rules.strong_sell with
  | some ss =>
    if ss ≤ price then
      .ok ["🔴 Strong Sell Signal for " ++ ticker ++ " at $" ++ showMoney price,
           "• Price at/above strong sell level $" ++ showMoney ss]
    else
      match rules.above with
      | some a =>
        if a ≤ price then
          .ok ["🔴 Sell Signal for " ++ ticker ++ " at $" ++ showMoney price,
               "• Price above sell threshold $" ++ showMoney a]
        else .ok []
      | none => .error "above"
  | none => .error "strong_sell"

/-- The support/resistance proximity block: one message per configured
level within 1% of the price (`abs(price - level) <= level * 0.01`). -/
def levelOps (price : ℚ) (levels : Option (List ℚ)) (tag : String) (zone : String) :
    List String :=
  match levels with
  | none => []
  | some ls =>
    ls.filterMap (fun level =>
      if |price - level| ≤ level * (1 / 100) then
        some ("📊 Near " ++ tag ++ " level $" ++ showMoney level ++ " (potential "
          ++ zone ++ " zone)")
      else none)

/-- Outcome of `yf.Ticker(t).info` inside `check_trading_opportunities`:
the lookup may raise, return an empty (falsy) dict, or a dict with an
optional `regularMarketPrice`. -/
inductive TickerInfo where
  | exc (msg : String)
  | noInfo
  | info (price : Option ℚ)
deriving Repr, DecidableEq

/-- `check_trading_opportunities` from `src/services/alerts.py`. -/
def check_trading_opportunities (ticker : String) (config : List (String × AlertRule))
    (fetch : String → TickerInfo) : List String :=
  -- `if not alerts_config or ticker.upper() not in alerts_config`: a failed
  -- lookup covers both disjuncts (the lookup in an empty dict fails).
  match lookupRule config (pyUpper ticker) with
  | none => ["⚠️ No configuration found for " ++ ticker]
  | some rules =>
      match fetch ticker with
      | .exc msg => ["⚠️ Error checking " ++ ticker ++ ": " ++ msg]
      | .noInfo => ["⚠️ Could not get data for " ++ ticker]
      | .info priceOpt =>
        if priceTruthy priceOpt then
          let price := priceOpt.getD 0
          match buySideOps ticker rules price with
          | .error key => ["⚠️ Error checking " ++ ticker ++ ": " ++ pyKeyErrorStr key]
          | .ok buyOps =>
            match sellSideOps ticker rules price with
            | .error key => ["⚠️ Error checking " ++ ticker ++ ": " ++ pyKeyErrorStr key]
            | .ok sellOps =>
              let ops := buyOps ++ sellOps
                ++ levelOps price rules.support_levels "support" "buy"
                ++ levelOps price rules.resistance_levels "resistance" "sell"
              if ops = [] then
                ["ℹ️ No immediate trading opportunities for " ++ ticker ++ " at $"
                  ++ showMoney price]
              else if rules.description = "" then ops
              else ops ++ ["\nNote: " ++ rules.description]
        else
          ["⚠️ Could not get current price for " ++ ticker]

/-! ### `src/server.py` : `check_stock_alerts`

The tool returns `{"alerts": <list>}`; the embedding returns the list. -/

/-- `check_stock_alerts` from `src/server.py`: evaluate alerts for the
single stripped-and-uppercased ticker, then keep only the messages that
contain the uppercased (unstripped) ticker as a substring. -/
def check_stock_alerts (ticker : String) (config : List (String × AlertRule))
    (fetch : String → FetchRes) : List String :=
  if ticker = "" then ["⚠️ No ticker provided"]
  else
    let alerts := check_alerts (some [pyUpper (pyStrip ticker)]) config fetch
    alerts.filter (fun a => strIn (pyUpper ticker) a)

/-! ### `src/services/portfolio.py`

The watchlist file is modelled as either absent, present-but-undecodable,
or holding a JSON value.  `json.dump` followed by `json.load` recovers the
same JSON value, so the file stores the value itself; the JSON grammar is
restricted to the shapes the store manipulates (strings, numbers, arrays,
objects).  Disk-write failures are not injected: every claim below concerns
the successful-write behaviour, and `save_portfolio`'s only modelled
failure is its own shape validation (`raise ValueError`). -/

/-- JSON values (the fragment the portfolio store can encounter). -/
inductive Json where
  | str (s : String)
  | num (n : Int)
  | arr (elems : List Json)
  | obj (fields : List (String × Json))

mutual

/-- Python `==` on JSON values. -/
def jsonBeq : Json → Json → Bool
  | .str a, .str b => a == b
  | .num a, .num b => a == b
  | .arr as, .arr bs => jsonBeqL as bs
  | .obj as, .obj bs => jsonBeqF as bs
  | _, _ => false

/-- Python `==` on JSON arrays. -/
def jsonBeqL : List Json → List Json → Bool
  | [], [] => true
  | a :: as, b :: bs => jsonBeq a b && jsonBeqL as bs
  | _, _ => false

/-- Python `==` on JSON objects (insertion order; the store never builds
duplicate or reordered keys). -/
def jsonBeqF : List (String × Json) → List (String × Json) → Bool
  | [], [] => true
  | (k1, v1) :: as, (k2, v2) :: bs => (k1 == k2) && jsonBeq v1 v2 && jsonBeqF as bs
  | _, _ => false

end

/-- Python `x in l` on a list, by `==`. -/
def containsJson (x : Json) : List Json → Bool
  | [] => false
  | y :: ys => jsonBeq x y || containsJson x ys

/-- Replace the value at the first occurrence of a key. -/
def setFirst : List (String × Json) → String → Json → List (String × Json)
  | [], _, _ => []
  | (k0, v0) :: rest, k, v =>
    if k0 = k then (k, v) :: rest else (k0, v0) :: setFirst rest k v

/-- Python `d[k]` on a dict, `none` when the key is missing or the value is
not a dict. -/
def jsonGet : Json → String → Option Json
  | .obj fields, k => (fields.find? (fun p => p.1 = k)).map Prod.snd
  | _, _ => none

/-- `"tickers" in data`. -/
def jsonHasKey (j : Json) (k : String) : Bool := (jsonGet j k).isSome

/-- `isinstance(data, dict)`. -/
def isDict : Json → Bool
  | .obj _ => true
  | _ => false

/-- `d[k] = v` for a dict whose key `k` exists (in-place mutation of the
loaded dict). -/
def jsonSet : Json → String → Json → Json
  | .obj fields, k, v => .obj (setFirst fields k v)
  | j, _, _ => j

/-- Python `x in container` as used on `portfolio["tickers"]`: list
membership by `==`, substring test on a string, `TypeError` otherwise. -/
def pyListIn (x : Json) : Json → Except String Bool
  | .arr l => .ok (containsJson x l)
  | .str s =>
    match x with
    | .str xs => .ok (strIn xs s)
    | _ => .error "TypeError: in <string> requires string as left operand"
  | _ => .error "argument is not iterable"

/-- State of the persisted watchlist file. -/
inductive PFile where
  | absent
  | corrupt
  | stored (doc : Json)

/-- The initial document `{"tickers": []}`. -/
def emptyPortfolio : Json := .obj [("tickers", .arr [])]

/-- `load_portfolio`: the loaded document together with the resulting file
state (a missing file is created holding the initial document; a corrupt
file is left alone and the default document returned). -/
def load_portfolio : PFile → Json × PFile
  | .absent => (emptyPortfolio, .stored emptyPortfolio)
  | .corrupt => (emptyPortfolio, .corrupt)
  | .stored doc => (doc, .stored doc)

/-- `save_portfolio`: validate the shape, then overwrite the file.  The
`raise ValueError("Invalid portfolio data structure")` branch is the
error. -/
def save_portfolio (data : Json) (_file : PFile) : Except String PFile :=
  if isDict data && jsonHasKey data "tickers" then .ok (.stored data)
  else .error "Invalid portfolio data structure"

/-- The `{"error": ..., "tickers": []}` document returned by `add_ticker`'s
`except` handler. -/
def errorDoc (e : String) : Json := .obj [("error", .str e), ("tickers", .arr [])]

/-- `add_ticker` from `src/services/portfolio.py`: load, uppercase the
ticker, append if not already present, persist; any raised exception is
converted to an error document (the file keeps whatever state the steps so
far produced). -/
def add_ticker (ticker : String) (file : PFile) : Json × PFile :=
  let loaded := load_portfolio file
  let portfolio := loaded.1
  let file1 := loaded.2
  match jsonGet portfolio "tickers" with
  | none =>
    -- `portfolio["tickers"]` raises (KeyError / TypeError)
    (errorDoc (pyKeyErrorStr "tickers"), file1)
  | some tickersVal =>
    match pyListIn (.str (pyUpper ticker)) tickersVal with
    | .error e => (errorDoc e, file1)
    | .ok true => (portfolio, file1)
    | .ok false =>
      match tickersVal with
      | .arr l =>
        let portfolio2 := jsonSet portfolio "tickers" (.arr (l ++ [.str (pyUpper ticker)]))
        match save_portfolio portfolio2 file1 with
        | .ok file2 => (portfolio2, file2)
        | .error e => (errorDoc e, file1)
      | _ =>
        -- `.append` on a non-list raises AttributeError
        (errorDoc "AttributeError: no attribute append", file1)

/-- `get_portfolio` from `src/server.py` (also the `add_stock` return
value): a fresh `load_portfolio`. -/
def get_portfolio (file : PFile) : Json := (load_portfolio file).1

/-! ### `src/services/market_summary.py` : `get_market_wrap` movers

`regularMarketChangePercent` values are embedded in hundredths of a percent
(integer `changeCenti`), the precision at which the code renders them with
`f"{x:+.2f}%"`; the sort key `float(x["change"].replace('%',''))` then
recovers exactly `changeCenti / 100`, so comparing keys is comparing
`changeCenti`.  A per-ticker fetch result of `none` models the bare
`except: continue`. -/

/-- The fixed list of tracked large-cap tickers. -/
def trackedTickers : List String :=
  ["AAPL", "TSLA", "GOOGL", "MSFT", "AMZN", "NVDA", "META"]

/-- One entry appended to `gainers`/`losers`. -/
structure MoverEntry where
  ticker : String
  changeCenti : Int
deriving Repr, DecidableEq

/-- The per-ticker loop over `tracked_tickers`: skip fetch failures, default
an absent `regularMarketChangePercent` to `0`. -/
def collectMovers (fetch : String → Option (Option Int)) (ts : List String) :
    List MoverEntry :=
  ts.filterMap (fun t =>
    match fetch t with
    | none => none
    | some cpOpt => some ⟨t, cpOpt.getD 0⟩)

/-- Stable insertion for ascending sort by an integer key (Python `sorted`
is stable: an earlier element precedes a later one with an equal key). -/
def pyInsertAsc (key : MoverEntry → Int) (x : MoverEntry) :
    List MoverEntry → List MoverEntry
  | [] => [x]
  | y :: ys => if key y < key x then y :: pyInsertAsc key x ys else x :: y :: ys

/-- Python `sorted(l, key=key)`. -/
def pySortAsc (key : MoverEntry → Int) (l : List MoverEntry) : List MoverEntry :=
  l.foldr (pyInsertAsc key) []

/-- Stable insertion for `sorted(..., reverse=True)` (each comparison
reversed, stability preserved). -/
def pyInsertDesc (key : MoverEntry → Int) (x : MoverEntry) :
    List MoverEntry → List MoverEntry
  | [] => [x]
  | y :: ys => if key x < key y then y :: pyInsertDesc key x ys else x :: y :: ys

/-- Python `sorted(l, key=key, reverse=True)`. -/
def pySortDesc (key : MoverEntry → Int) (l : List MoverEntry) : List MoverEntry :=
  l.foldr (pyInsertDesc key) []

/-- The per-ticker loop of the market wrap: walk the tracked tickers in
order, appending each successfully fetched entry to `gainers` when
`change_pct >= 0` and to `losers` otherwise; a raised fetch is skipped
(`except: continue`). -/
def moversLoop (fetch : String → Option (Option Int)) :
    List String → List MoverEntry × List MoverEntry
  | [] => ([], [])
  | t :: ts =>
    let rest := moversLoop fetch ts
    match fetch t with
    | none => rest
    | some cpOpt =>
      let e : MoverEntry := ⟨t, cpOpt.getD 0⟩
      if 0 ≤ e.changeCenti then (e :: rest.1, rest.2) else (rest.1, e :: rest.2)

/-- `top_gainers` of the market wrap. -/
def topGainers (fetch : String → Option (Option Int)) : List MoverEntry :=
  (pySortDesc (fun m => m.changeCenti) (moversLoop fetch trackedTickers).1).take 3

/-- `top_losers` of the market wrap. -/
def topLosers (fetch : String → Option (Option Int)) : List MoverEntry :=
  (pySortAsc (fun m => m.changeCenti) (moversLoop fetch trackedTickers).2).take 3

/-- Modelled from the spec (for comparison with the code): "Gainers/losers
are the top three tracked tickers by signed percent change, descending and
ascending respectively" — i.e. the three smallest signed changes among all
successfully fetched tracked tickers, ascending. -/
def topLosersSpec (fetch : String → Option (Option Int)) : List MoverEntry :=
  (pySortAsc (fun m => m.changeCenti) (collectMovers fetch trackedTickers)).take 3

/-! ### Concrete inputs and side predicates used by the theorems below -/

/-- The cleaned strings recognised by `clean_sentiment`'s synonym table. -/
def recognisedSentiments : List String :=
  ["POSITIVE", "NEGATIVE", "NEUTRAL", "BULLISH", "BEARISH", "MIXED"]

/-- A rule set whose only threshold is `strong_sell = 150`. -/
def onlyStrongSellConfig : List (String × AlertRule) :=
  [("XYZ", { strong_sell := some 150 })]

/-- A fetch in which every tracked ticker reports a positive percent
change (+1.00% .. +7.00%). -/
def allPositiveFetch : String → Option (Option Int) := fun t =>
  if t = "AAPL" then some (some 100)
  else if t = "TSLA" then some (some 200)
  else if t = "GOOGL" then some (some 300)
  else if t = "MSFT" then some (some 400)
  else if t = "AMZN" then some (some 500)
  else if t = "NVDA" then some (some 600)
  else if t = "META" then some (some 700)
  else none

/-- Occurrences of the string `s` in a JSON array, by Python `==`. -/
def countStr (l : List Json) (s : String) : Nat :=
  List.countP (fun y => jsonBeq (Json.str s) y) l

/-- The watchlist-store invariant under which `add_ticker` is run: the file
is absent, undecodable, or stores a dict whose `"tickers"` value is an
array containing the uppercased ticker at most once (the spec's watchlist
is a set, so valid states hold no duplicates). -/
def AddOk (ticker : String) : PFile → Prop
  | .absent => True
  | .corrupt => True
  | .stored j => ∃ l, jsonGet j "tickers" = some (.arr l) ∧ countStr l (pyUpper ticker) ≤ 1

/-- The valid document shape of claim C8: a dict whose `"tickers"` value is
an array of strings. -/
def validPortfolioDoc (j : Json) : Prop :=
  isDict j = true ∧ ∃ l, jsonGet j "tickers" = some (.arr l) ∧ ∀ x ∈ l, ∃ s, x = Json.str s

/-! ## Theorems -/

/-- C1: for every input list of articles and every combination of
per-article outcomes (successful parse, missing markers, JSON decode
error, timeout, other exception), `summarize_articles` returns exactly one
summary per article, in order, the i-th summary carrying the i-th
article's title. -/
theorem summarize_articles_shape (jobs : List (Article × OllamaResult)) :
    (summarize_articles jobs).length = jobs.length ∧
    ∀ i : Nat, ((summarize_articles jobs)[i]?).map Summary.title
      = (jobs[i]?).map (fun p => p.1.title) := by
  refine ⟨by simp [summarize_articles], fun i => ?_⟩
  simp [summarize_articles, List.getElem?_map, Option.map_map]
  rfl

/-- C3: `clean_sentiment` is total with range {POSITIVE, NEGATIVE,
NEUTRAL}; after whitespace/edge-punctuation stripping and upper-casing,
BULLISH maps to POSITIVE, BEARISH to NEGATIVE, MIXED to NEUTRAL, and every
unrecognised cleaned input maps to NEUTRAL. -/
theorem clean_sentiment_total_and_table (s : String) :
    (clean_sentiment s = "POSITIVE" ∨ clean_sentiment s = "NEGATIVE" ∨
      clean_sentiment s = "NEUTRAL") ∧
    (cleanedOf s = "BULLISH" → clean_sentiment s = "POSITIVE") ∧
    (cleanedOf s = "BEARISH" → clean_sentiment s = "NEGATIVE") ∧
    (cleanedOf s = "MIXED" → clean_sentiment s = "NEUTRAL") ∧
    (cleanedOf s ∉ recognisedSentiments → clean_sentiment s = "NEUTRAL") := by
  refine ⟨?_, ?_, ?_, ?_, ?_⟩
  · unfold clean_sentiment
    split_ifs <;> simp
  · intro h; simp [clean_sentiment, h]
  · intro h; simp [clean_sentiment, h]
  · intro h; simp [clean_sentiment, h]
  · intro h
    simp only [recognisedSentiments, List.mem_cons, List.not_mem_nil, or_false, not_or] at h
    obtain ⟨h1, h2, h3, h4, h5, h6⟩ := h
    simp [clean_sentiment, h1, h2, h3, h4, h5, h6]

/-- Witness for C3 at concrete inputs covering each mapped synonym and an
unrecognised value. -/
theorem clean_sentiment_total_and_table_witness :
    (cleanedOf " bullish!" = "BULLISH" ∧ clean_sentiment " bullish!" = "POSITIVE") ∧
    (cleanedOf "bearish" = "BEARISH" ∧ clean_sentiment "bearish" = "NEGATIVE") ∧
    (cleanedOf "Mixed." = "MIXED" ∧ clean_sentiment "Mixed." = "NEUTRAL") ∧
    (cleanedOf "great" ∉ recognisedSentiments ∧ clean_sentiment "great" = "NEUTRAL") :=
  ⟨⟨by decide, (clean_sentiment_total_and_table " bullish!").2.1 (by decide)⟩,
   ⟨by decide, (clean_sentiment_total_and_table "bearish").2.2.1 (by decide)⟩,
   ⟨by decide, (clean_sentiment_total_and_table "Mixed.").2.2.2.1 (by decide)⟩,
   ⟨by decide, (clean_sentiment_total_and_table "great").2.2.2.2 (by decide)⟩⟩

theorem toNat_ofNat_valid (n : Nat) (h : n < 55296) : (Char.ofNat n).toNat = n := by
  have hv : n.isValidChar := Or.inl h
  rw [Char.ofNat, dif_pos hv]
  simp [Char.ofNatAux, Char.toNat, UInt32.toNat, BitVec.toNat_ofNatLt]

theorem pyLowerChar_ne_S (c : Char) : pyLowerChar c ≠ 'S' := by
  unfold pyLowerChar
  split
  · rename_i hup
    intro heq
    simp only [isUpperChar, Bool.and_eq_true, decide_eq_true_eq] at hup
    have h1n : 65 ≤ c.toNat := hup.1
    have h2n : c.toNat ≤ 90 := hup.2
    have hrt := toNat_ofNat_valid (c.toNat + 32) (by omega)
    rw [heq] at hrt
    have hS : ('S').toNat = 83 := by decide
    omega
  · intro heq
    subst heq
    rename_i hup
    exact hup (by decide)

theorem mem_of_containsSub (p : Char) (ps hay : List Char)
    (h : containsSub (p :: ps) hay = true) : p ∈ hay := by
  induction hay with
  | nil => simp [containsSub, isPrefixL] at h
  | cons c t ih =>
    simp only [containsSub, Bool.or_eq_true] at h
    rcases h with h | h
    · simp only [isPrefixL, Bool.and_eq_true, decide_eq_true_eq] at h
      exact h.1 ▸ List.mem_cons_self c t
    · exact List.mem_cons_of_mem _ (ih h)

/-- The uppercase term `"SEC"` can never be a substring of the lowercased
query: `str.lower` produces no `'S'`. -/
theorem strIn_SEC_pyLower (q : String) : strIn "SEC" (pyLower q) = false := by
  by_contra h
  rw [Bool.not_eq_false] at h
  have hl : "SEC".toList = ['S', 'E', 'C'] := rfl
  rw [strIn, hl] at h
  have hmem : 'S' ∈ (pyLower q).toList := mem_of_containsSub 'S' ['E', 'C'] _ h
  have hmem2 : 'S' ∈ q.toList.map pyLowerChar := hmem
  simp only [List.mem_map] at hmem2
  obtain ⟨c, _, hc⟩ := hmem2
  exact pyLowerChar_ne_S c hc

/-- C4 (observed code behaviour): the keyword check lowercases the query
but compares against the vocabulary verbatim, so the uppercase term
`"SEC"` never matches any query; in particular `"SEC filing"` yields the
ticker `"SEC"` but an empty keyword list, contradicting the claimed
case-insensitive containment. -/
theorem extract_sec_keyword_never_matches :
    (∀ q : String, ((extract_financial_entities q).keywords.contains "SEC") = false) ∧
    (extract_financial_entities "SEC filing").tickers = ["SEC"] ∧
    (extract_financial_entities "SEC filing").keywords = [] := by
  refine ⟨fun q => ?_, by decide, by decide⟩
  by_contra h
  rw [Bool.not_eq_false] at h
  have hmem : "SEC" ∈ (extract_financial_entities q).keywords := by
    simpa using h
  have hfil := (List.mem_filter.mp hmem).2
  rw [strIn_SEC_pyLower] at hfil
  exact Bool.false_ne_true hfil

theorem upperRunLen_le_length (l : List Char) : upperRunLen l ≤ l.length := by
  induction l with
  | nil => simp [upperRunLen]
  | cons c t ih =>
    simp only [upperRunLen, List.length_cons]
    split <;> omega

theorem all_upper_take_upperRunLen (l : List Char) :
    (l.take (upperRunLen l)).all isUpperChar = true := by
  induction l with
  | nil => simp [upperRunLen]
  | cons c t ih =>
    simp only [upperRunLen]
    split
    · simp [List.take, *]
    · simp

/-- Every token the scanner emits is a run of one to five uppercase
letters. -/
theorem findTickersAux_sound (fuel : Nat) :
    ∀ (prevW : Bool) (l : List Char), ∀ tok ∈ findTickersAux fuel prevW l,
      1 ≤ tok.length ∧ tok.length ≤ 5 ∧ tok.all isUpperChar = true := by
  induction fuel with
  | zero => intro prevW l tok h; simp [findTickersAux] at h
  | succ n ih =>
    intro prevW l tok h
    match l with
    | [] => simp [findTickersAux] at h
    | c :: t =>
      rw [findTickersAux] at h
      by_cases hc : (!prevW && isUpperChar c && decide (upperRunLen (c :: t) ≤ 5)
          && boundaryAfter ((c :: t).drop (upperRunLen (c :: t)))) = true
      · rw [if_pos hc] at h
        simp only [Bool.and_eq_true, Bool.not_eq_true', decide_eq_true_eq] at hc
        rcases List.mem_cons.1 h with rfl | hmem
        · have h1 : upperRunLen (c :: t) ≥ 1 := by
            simp [upperRunLen, hc.1.1.2]
          have h2 := upperRunLen_le_length (c :: t)
          refine ⟨?_, ?_, all_upper_take_upperRunLen _⟩
          · simp only [List.length_take]
            omega
          · simp only [List.length_take]
            omega
        · exact ih _ _ _ hmem
      · rw [if_neg hc] at h
        exact ih _ _ _ h

/-- C5: every ticker returned by `extract_financial_entities` matches
`^[A-Z]{1,5}$`, every keyword is drawn from the fixed vocabulary, and the
query "What about AAPL earnings?" yields tickers `["AAPL"]` and keywords
`["earnings"]`. -/
theorem extract_entities_wellformed :
    (∀ (q : String), ∀ t ∈ (extract_financial_entities q).tickers,
      1 ≤ t.length ∧ t.length ≤ 5 ∧ t.toList.all isUpperChar = true) ∧
    extract_financial_entities "What about AAPL earnings?" =
      ⟨["AAPL"], ["earnings"]⟩ ∧
    (∀ (q : String), ∀ k ∈ (extract_financial_entities q).keywords, k ∈ financialTerms) := by
  refine ⟨?_, by decide, ?_⟩
  · intro q t ht
    simp only [extract_financial_entities, List.mem_map] at ht
    obtain ⟨tok, htok, rfl⟩ := ht
    exact findTickersAux_sound _ _ _ _ htok
  · intro q k hk
    simp only [extract_financial_entities] at hk
    exact (List.mem_filter.mp hk).1

/-- Witness for C5 at the scenario query. -/
theorem extract_entities_wellformed_witness :
    ("AAPL" ∈ (extract_financial_entities "What about AAPL earnings?").tickers ∧
      1 ≤ "AAPL".length ∧ "AAPL".length ≤ 5 ∧ "AAPL".toList.all isUpperChar = true) ∧
    ("earnings" ∈ (extract_financial_entities "What about AAPL earnings?").keywords ∧
      "earnings" ∈ financialTerms) :=
  ⟨⟨by decide,
    extract_entities_wellformed.1 "What about AAPL earnings?" "AAPL" (by decide)⟩,
   ⟨by decide,
    extract_entities_wellformed.2.2 "What about AAPL earnings?" "earnings" (by decide)⟩⟩

/-- C2 (observed code behaviour): for a ticker configured with only
`strong_sell = 150` and a current price of 160, the buy-side check
`price <= rules.get("strong_buy", float('inf'))` fires spuriously and the
following `rules['strong_buy']` raises `KeyError`, so
`check_trading_opportunities` returns the error message — not the
strong-sell signal the claim describes. -/
theorem trading_opportunities_strong_sell_only_errors :
    check_trading_opportunities "XYZ" onlyStrongSellConfig
        (fun _ => TickerInfo.info (some 160))
      = ["⚠️ Error checking XYZ: \x27strong_buy\x27"] := by
  rfl

/-- C6: in `check_alerts` the per-ticker chain is first-match-wins in the
order strong_buy (≤), below (<), strong_sell (≥), above (>): whenever the
strong_buy threshold fires, the result for that ticker is exactly the
strong-buy message even when `below` would also fire; and when no rule
fires, an explicitly requested ticker yields the no-signal message while a
scan over all tickers yields no entry. -/
theorem check_alerts_priority :
    (∀ (t : String) (price : ℚ) (rules : AlertRule) (fetch : String → FetchRes),
      fetch t = .info (some price) → price ≠ 0 →
      firesLe rules.strong_buy price = true →
      check_alerts (some [t]) [(t, rules)] fetch
        = [strongBuyMsg t price (rules.strong_buy.getD 0) rules.description]) ∧
    (∀ (t : String) (price : ℚ) (rules : AlertRule) (fetch : String → FetchRes),
      fetch t = .info (some price) → price ≠ 0 →
      firesLe rules.strong_buy price = false → firesLt rules.below price = true →
      check_alerts (some [t]) [(t, rules)] fetch
        = [buyMsg t price (rules.below.getD 0) rules.description]) ∧
    (∀ (t : String) (price : ℚ) (rules : AlertRule) (fetch : String → FetchRes),
      fetch t = .info (some price) → price ≠ 0 →
      firesLe rules.strong_buy price = false → firesLt rules.below price = false →
      firesGe rules.strong_sell price = true →
      check_alerts (some [t]) [(t, rules)] fetch
        = [strongSellMsg t price (rules.strong_sell.getD 0) rules.description]) ∧
    (∀ (t : String) (price : ℚ) (rules : AlertRule) (fetch : String → FetchRes),
      fetch t = .info (some price) → price ≠ 0 →
      firesLe rules.strong_buy price = false → firesLt rules.below price = false →
      firesGe rules.strong_sell price = false → firesGt rules.above price = true →
      check_alerts (some [t]) [(t, rules)] fetch
        = [sellMsg t price (rules.above.getD 0) rules.description]) ∧
    (∀ (t : String) (price : ℚ) (rules : AlertRule) (fetch : String → FetchRes),
      fetch t = .info (some price) → price ≠ 0 →
      firesLe rules.strong_buy price = false → firesLt rules.below price = false →
      firesGe rules.strong_sell price = false → firesGt rules.above price = false →
      check_alerts (some [t]) [(t, rules)] fetch = [noSignalMsg t price rules.description] ∧
      check_alerts none [(t, rules)] fetch = []) := by
  refine ⟨?_, ?_, ?_, ?_, ?_⟩
  · intro t price rules fetch hf hp h1
    simp [check_alerts, listTruthy, checkAlertsTicker, lookupRule, hf, priceTruthy, hp,
      tickerSignals, h1]
  · intro t price rules fetch hf hp h1 h2
    simp [check_alerts, listTruthy, checkAlertsTicker, lookupRule, hf, priceTruthy, hp,
      tickerSignals, h1, h2]
  · intro t price rules fetch hf hp h1 h2 h3
    simp [check_alerts, listTruthy, checkAlertsTicker, lookupRule, hf, priceTruthy, hp,
      tickerSignals, h1, h2, h3]
  · intro t price rules fetch hf hp h1 h2 h3 h4
    simp [check_alerts, listTruthy, checkAlertsTicker, lookupRule, hf, priceTruthy, hp,
      tickerSignals, h1, h2, h3, h4]
  · intro t price rules fetch hf hp h1 h2 h3 h4
    constructor <;>
      simp [check_alerts, listTruthy, checkAlertsTicker, lookupRule, hf, priceTruthy, hp,
        tickerSignals, h1, h2, h3, h4]

/-- Witness for C6: price 90 with strong_buy 95 and below 100 produces
exactly the strong-buy message; with a rule set nothing matches, the
requested ticker gets the no-signal entry and a scan of all tickers gets
none. -/
theorem check_alerts_priority_witness :
    check_alerts (some ["AAPL"])
        [("AAPL", { strong_buy := some 95, below := some 100 })]
        (fun _ => FetchRes.info (some 90))
      = [strongBuyMsg "AAPL" 90 95 ""] ∧
    check_alerts (some ["AAPL"])
        [("AAPL", { strong_buy := some 80, below := some 100, strong_sell := some 50 })]
        (fun _ => FetchRes.info (some 90))
      = [buyMsg "AAPL" 90 100 ""] ∧
    check_alerts (some ["AAPL"])
        [("AAPL", { strong_sell := some 85, above := some 80 })]
        (fun _ => FetchRes.info (some 90))
      = [strongSellMsg "AAPL" 90 85 ""] ∧
    check_alerts (some ["AAPL"]) [("AAPL", { above := some 80 })]
        (fun _ => FetchRes.info (some 90))
      = [sellMsg "AAPL" 90 80 ""] ∧
    check_alerts (some ["AAPL"]) [("AAPL", { above := some 200 })]
        (fun _ => FetchRes.info (some 90))
      = [noSignalMsg "AAPL" 90 ""] ∧
    check_alerts none [("AAPL", { above := some 200 })]
        (fun _ => FetchRes.info (some 90)) = [] :=
  ⟨check_alerts_priority.1 "AAPL" 90 { strong_buy := some 95, below := some 100 } _
      rfl (by norm_num) (by decide),
   check_alerts_priority.2.1 "AAPL" 90
      { strong_buy := some 80, below := some 100, strong_sell := some 50 } _
      rfl (by norm_num) (by decide) (by decide),
   check_alerts_priority.2.2.1 "AAPL" 90 { strong_sell := some 85, above := some 80 } _
      rfl (by norm_num) rfl rfl (by decide),
   check_alerts_priority.2.2.2.1 "AAPL" 90 { above := some 80 } _
      rfl (by norm_num) rfl rfl rfl (by decide),
   (check_alerts_priority.2.2.2.2 "AAPL" 90 { above := some 200 } _ rfl (by norm_num)
      rfl rfl rfl (by decide)).1,
   (check_alerts_priority.2.2.2.2 "AAPL" 90 { above := some 200 } _ rfl (by norm_num)
      rfl rfl rfl (by decide)).2⟩

/-- C10 counterexample: for the one-letter ticker "E" (whose uppercase form
occurs inside "Error"), the configuration-error message survives the
substring filter, so `check_stock_alerts` does not return an empty alert
list as the claim states for every ticker. -/
theorem check_stock_alerts_config_error_leaks :
    check_stock_alerts "E" [] (fun _ => FetchRes.info none) = [configErrorMsg] ∧
    check_stock_alerts "E" [] (fun _ => FetchRes.info none) ≠ [] := by
  exact ⟨by rfl, by decide⟩

/-- C10 (amended): whenever the rule configuration fails to load (empty
rule set) and the uppercased ticker is not a substring of the
configuration-error message — every ticker except ones like "E" or "C"
that occur in that message — `check_stock_alerts` filters the error away
and returns an empty alert list, silently dropping the failure. -/
theorem check_stock_alerts_config_error_filtered (ticker : String)
    (fetch : String → FetchRes) (hne : ticker ≠ "")
    (hnot : strIn (pyUpper ticker) configErrorMsg = false) :
    check_stock_alerts ticker [] fetch = [] := by
  simp [check_stock_alerts, check_alerts, hne, List.filter, hnot]

/-- Witness for the amended C10 at ticker "AAPL". -/
theorem check_stock_alerts_config_error_filtered_witness :
    check_stock_alerts "AAPL" [] (fun _ => FetchRes.info none) = [] :=
  check_stock_alerts_config_error_filtered "AAPL" _ (by decide) (by decide)

theorem jsonBeq_str_str (a b : String) : jsonBeq (.str a) (.str b) = (a == b) := rfl

theorem jsonBeq_str_num (a : String) (n : Int) : jsonBeq (.str a) (.num n) = false := rfl

theorem jsonBeq_str_arr (a : String) (l : List Json) : jsonBeq (.str a) (.arr l) = false := rfl

theorem jsonBeq_str_obj (a : String) (l : List (String × Json)) :
    jsonBeq (.str a) (.obj l) = false := rfl

theorem jsonBeq_str_iff (s : String) (y : Json) :
    jsonBeq (Json.str s) y = true ↔ y = Json.str s := by
  cases y with
  | str b =>
    simp only [jsonBeq_str_str, beq_iff_eq, Json.str.injEq]
    exact eq_comm
  | num n => simp [jsonBeq_str_num]
  | arr l => simp [jsonBeq_str_arr]
  | obj l => simp [jsonBeq_str_obj]

theorem containsJson_str_iff (s : String) (l : List Json) :
    containsJson (Json.str s) l = true ↔ Json.str s ∈ l := by
  induction l with
  | nil => simp [containsJson]
  | cons y ys ih =>
    rw [containsJson, Bool.or_eq_true, ih, jsonBeq_str_iff, List.mem_cons]
    exact or_congr eq_comm Iff.rfl

theorem countStr_append (l1 l2 : List Json) (s : String) :
    countStr (l1 ++ l2) s = countStr l1 s + countStr l2 s := by
  simp [countStr, List.countP_append]

theorem countStr_singleton (s : String) : countStr [Json.str s] s = 1 := by
  simp [countStr, List.countP_cons, jsonBeq_str_str]

theorem countStr_eq_zero_of_not_contains (l : List Json) (s : String)
    (h : containsJson (Json.str s) l = false) : countStr l s = 0 := by
  rw [countStr, List.countP_eq_zero]
  intro a ha hbeq
  rw [jsonBeq_str_iff] at hbeq
  subst hbeq
  rw [(containsJson_str_iff s l).mpr ha] at h
  exact Bool.noConfusion h

theorem countStr_pos_of_contains (l : List Json) (s : String)
    (h : containsJson (Json.str s) l = true) : 0 < countStr l s := by
  rw [countStr, List.countP_pos_iff]
  exact ⟨Json.str s, (containsJson_str_iff s l).mp h, by simp [jsonBeq_str_str]⟩

theorem find?_setFirst (fields : List (String × Json)) (k : String) (v : Json)
    (h : (List.find? (fun p => p.1 = k) fields).isSome = true) :
    List.find? (fun p => p.1 = k) (setFirst fields k v) = some (k, v) := by
  induction fields with
  | nil => simp [List.find?] at h
  | cons p rest ih =>
    by_cases hk : p.1 = k
    · simp [setFirst, hk, List.find?]
    · rw [List.find?_cons_of_neg _ (by simp [hk])] at h
      simp only [setFirst, if_neg hk]
      rw [List.find?_cons_of_neg _ (by simp [hk])]
      exact ih h

theorem jsonGet_jsonSet (fields : List (String × Json)) (k : String) (v tv : Json)
    (h : jsonGet (Json.obj fields) k = some tv) :
    jsonGet (jsonSet (Json.obj fields) k v) k = some v := by
  simp only [jsonGet, jsonSet]
  rw [find?_setFirst fields k v]
  · rfl
  · simp only [jsonGet] at h
    cases hf : List.find? (fun p => p.1 = k) fields with
    | none => rw [hf] at h; simp at h
    | some p => simp [hf]

/-- When the stored tickers array already contains the uppercased ticker,
`add_ticker` returns the loaded document and leaves the file unchanged. -/
theorem add_ticker_stored_mem (ticker : String) (j : Json) (l : List Json)
    (hget : jsonGet j "tickers" = some (.arr l))
    (hmem : containsJson (.str (pyUpper ticker)) l = true) :
    add_ticker ticker (.stored j) = (j, .stored j) := by
  simp [add_ticker, load_portfolio, hget, pyListIn, hmem]

/-- When the uppercased ticker is absent, `add_ticker` appends it and
persists the updated document. -/
theorem add_ticker_stored_new (ticker : String) (fields : List (String × Json))
    (l : List Json)
    (hget : jsonGet (.obj fields) "tickers" = some (.arr l))
    (hmem : containsJson (.str (pyUpper ticker)) l = false) :
    add_ticker ticker (.stored (.obj fields))
      = (jsonSet (.obj fields) "tickers" (.arr (l ++ [.str (pyUpper ticker)])),
         .stored (jsonSet (.obj fields) "tickers" (.arr (l ++ [.str (pyUpper ticker)])))) := by
  have hg2 := jsonGet_jsonSet fields "tickers" (.arr (l ++ [.str (pyUpper ticker)])) _ hget
  have hg2' : jsonGet (Json.obj (setFirst fields "tickers"
      (Json.arr (l ++ [Json.str (pyUpper ticker)])))) "tickers"
      = some (Json.arr (l ++ [Json.str (pyUpper ticker)])) := by
    simpa [jsonSet] using hg2
  have hsave : save_portfolio (jsonSet (.obj fields) "tickers"
      (.arr (l ++ [.str (pyUpper ticker)]))) (.stored (.obj fields))
      = .ok (.stored (jsonSet (.obj fields) "tickers"
          (.arr (l ++ [.str (pyUpper ticker)])))) := by
    simp [save_portfolio, jsonSet, isDict, jsonHasKey, hg2']
  simp [add_ticker, load_portfolio, hget, pyListIn, hmem, hsave]

/-- On a missing file, `add_ticker` creates `{"tickers": [TICKER]}`. -/
theorem add_ticker_absent (ticker : String) :
    add_ticker ticker .absent
      = (Json.obj [("tickers", Json.arr [Json.str (pyUpper ticker)])],
         .stored (Json.obj [("tickers", Json.arr [Json.str (pyUpper ticker)])])) := rfl

/-- On an undecodable file, `add_ticker` likewise starts from the default
empty document. -/
theorem add_ticker_corrupt (ticker : String) :
    add_ticker ticker .corrupt
      = (Json.obj [("tickers", Json.arr [Json.str (pyUpper ticker)])],
         .stored (Json.obj [("tickers", Json.arr [Json.str (pyUpper ticker)])])) := rfl

/-- C7: watchlist add uppercases the ticker and appends it only if absent,
so adding the same ticker twice (from any duplicate-free watchlist state)
leaves the file as after the first add, with exactly one occurrence of the
uppercase form; and `add_stock("tsla")` on an empty store followed by
`get_portfolio` yields `{"tickers": ["TSLA"]}`. -/
theorem add_ticker_idempotent (ticker : String) (file : PFile)
    (hok : AddOk ticker file) :
    (add_ticker ticker (add_ticker ticker file).2).2 = (add_ticker ticker file).2 ∧
    (∃ l, jsonGet (add_ticker ticker (add_ticker ticker file).2).1 "tickers"
        = some (.arr l) ∧ countStr l (pyUpper ticker) = 1) ∧
    get_portfolio (add_ticker "tsla" PFile.absent).2
      = Json.obj [("tickers", Json.arr [Json.str "TSLA"])] := by
  cases file with
  | absent =>
    rw [add_ticker_absent]
    have hget : jsonGet (Json.obj [("tickers", Json.arr [Json.str (pyUpper ticker)])])
        "tickers" = some (.arr [Json.str (pyUpper ticker)]) := rfl
    have hmem : containsJson (.str (pyUpper ticker)) [Json.str (pyUpper ticker)] = true := by
      simp [containsJson, jsonBeq_str_str]
    rw [add_ticker_stored_mem ticker _ _ hget hmem]
    exact ⟨rfl, ⟨[Json.str (pyUpper ticker)], hget, countStr_singleton _⟩, rfl⟩
  | corrupt =>
    rw [add_ticker_corrupt]
    have hget : jsonGet (Json.obj [("tickers", Json.arr [Json.str (pyUpper ticker)])])
        "tickers" = some (.arr [Json.str (pyUpper ticker)]) := rfl
    have hmem : containsJson (.str (pyUpper ticker)) [Json.str (pyUpper ticker)] = true := by
      simp [containsJson, jsonBeq_str_str]
    rw [add_ticker_stored_mem ticker _ _ hget hmem]
    exact ⟨rfl, ⟨[Json.str (pyUpper ticker)], hget, countStr_singleton _⟩, rfl⟩
  | stored j =>
    obtain ⟨l, hget, hcount⟩ := hok
    cases j with
    | str s => simp [jsonGet] at hget
    | num n => simp [jsonGet] at hget
    | arr a => simp [jsonGet] at hget
    | obj fields =>
      by_cases hmem : containsJson (.str (pyUpper ticker)) l = true
      · rw [add_ticker_stored_mem ticker _ _ hget hmem,
          add_ticker_stored_mem ticker _ _ hget hmem]
        refine ⟨rfl, ⟨l, hget, ?_⟩, rfl⟩
        have hpos := countStr_pos_of_contains l _ hmem
        omega
      · simp only [Bool.not_eq_true] at hmem
        rw [add_ticker_stored_new ticker fields l hget hmem]
        have hget2 : jsonGet (jsonSet (.obj fields) "tickers"
            (.arr (l ++ [.str (pyUpper ticker)]))) "tickers"
            = some (.arr (l ++ [.str (pyUpper ticker)])) :=
          jsonGet_jsonSet fields _ _ _ hget
        have hmem2 : containsJson (.str (pyUpper ticker))
            (l ++ [.str (pyUpper ticker)]) = true := by
          rw [containsJson_str_iff]
          simp
        rw [add_ticker_stored_mem ticker _ _ hget2 hmem2]
        refine ⟨rfl, ⟨l ++ [.str (pyUpper ticker)], hget2, ?_⟩, rfl⟩
        rw [countStr_append, countStr_eq_zero_of_not_contains l _ hmem,
          countStr_singleton]

/-- Witness for C7 starting from the empty (absent) store with ticker
"tsla". -/
theorem add_ticker_idempotent_witness :
    (add_ticker "tsla" (add_ticker "tsla" PFile.absent).2).2
        = (add_ticker "tsla" PFile.absent).2 ∧
    (∃ l, jsonGet (add_ticker "tsla" (add_ticker "tsla" PFile.absent).2).1 "tickers"
        = some (.arr l) ∧ countStr l (pyUpper "tsla") = 1) ∧
    get_portfolio (add_ticker "tsla" PFile.absent).2
      = Json.obj [("tickers", Json.arr [Json.str "TSLA"])] :=
  add_ticker_idempotent "tsla" PFile.absent trivial

/-- C8: persisting any document of the valid shape
`{"tickers": [list of strings]}` with `save_portfolio` and reading it back
with `load_portfolio` yields the original document. -/
theorem save_load_roundtrip (doc : Json) (file : PFile)
    (h : validPortfolioDoc doc) :
    ∃ file2, save_portfolio doc file = .ok file2 ∧ (load_portfolio file2).1 = doc := by
  obtain ⟨hdict, l, hget, _⟩ := h
  refine ⟨.stored doc, ?_, rfl⟩
  simp [save_portfolio, hdict, jsonHasKey, hget]

/-- Witness for C8 at the document `{"tickers": ["TSLA"]}`. -/
theorem save_load_roundtrip_witness :
    ∃ file2, save_portfolio (Json.obj [("tickers", Json.arr [Json.str "TSLA"])])
        PFile.absent = .ok file2 ∧
      (load_portfolio file2).1 = Json.obj [("tickers", Json.arr [Json.str "TSLA"])] :=
  save_load_roundtrip _ PFile.absent
    ⟨rfl, [Json.str "TSLA"], rfl, by
      intro x hx
      simp only [List.mem_singleton] at hx
      exact ⟨"TSLA", hx⟩⟩

theorem mem_pyInsertAsc (key : MoverEntry → Int) (x a : MoverEntry)
    (l : List MoverEntry) : a ∈ pyInsertAsc key x l ↔ a = x ∨ a ∈ l := by
  induction l with
  | nil => simp [pyInsertAsc]
  | cons y ys ih =>
    simp only [pyInsertAsc]
    split
    · simp only [List.mem_cons, ih]
      tauto
    · simp [List.mem_cons]

theorem mem_pyInsertDesc (key : MoverEntry → Int) (x a : MoverEntry)
    (l : List MoverEntry) : a ∈ pyInsertDesc key x l ↔ a = x ∨ a ∈ l := by
  induction l with
  | nil => simp [pyInsertDesc]
  | cons y ys ih =>
    simp only [pyInsertDesc]
    split
    · simp only [List.mem_cons, ih]
      tauto
    · simp [List.mem_cons]

theorem pairwise_pyInsertAsc (key : MoverEntry → Int) (x : MoverEntry)
    (l : List MoverEntry) (h : l.Pairwise (fun a b => key a ≤ key b)) :
    (pyInsertAsc key x l).Pairwise (fun a b => key a ≤ key b) := by
  induction l with
  | nil => simp [pyInsertAsc]
  | cons y ys ih =>
    rw [List.pairwise_cons] at h
    obtain ⟨hy, hys⟩ := h
    simp only [pyInsertAsc]
    split
    · rename_i hlt
      rw [List.pairwise_cons]
      refine ⟨?_, ih hys⟩
      intro b hb
      rw [mem_pyInsertAsc] at hb
      rcases hb with rfl | hb
      · omega
      · exact hy b hb
    · rename_i hnlt
      rw [List.pairwise_cons]
      refine ⟨?_, List.Pairwise.cons hy hys⟩
      intro b hb
      rcases List.mem_cons.1 hb with rfl | hb
      · omega
      · have := hy b hb
        omega

theorem pairwise_pyInsertDesc (key : MoverEntry → Int) (x : MoverEntry)
    (l : List MoverEntry) (h : l.Pairwise (fun a b => key b ≤ key a)) :
    (pyInsertDesc key x l).Pairwise (fun a b => key b ≤ key a) := by
  induction l with
  | nil => simp [pyInsertDesc]
  | cons y ys ih =>
    rw [List.pairwise_cons] at h
    obtain ⟨hy, hys⟩ := h
    simp only [pyInsertDesc]
    split
    · rename_i hlt
      rw [List.pairwise_cons]
      refine ⟨?_, ih hys⟩
      intro b hb
      rw [mem_pyInsertDesc] at hb
      rcases hb with rfl | hb
      · omega
      · exact hy b hb
    · rename_i hnlt
      rw [List.pairwise_cons]
      refine ⟨?_, List.Pairwise.cons hy hys⟩
      intro b hb
      rcases List.mem_cons.1 hb with rfl | hb
      · omega
      · have := hy b hb
        omega

theorem pairwise_pySortAsc (key : MoverEntry → Int) (l : List MoverEntry) :
    (pySortAsc key l).Pairwise (fun a b => key a ≤ key b) := by
  induction l with
  | nil => simp [pySortAsc]
  | cons x xs ih => exact pairwise_pyInsertAsc key x _ ih

theorem pairwise_pySortDesc (key : MoverEntry → Int) (l : List MoverEntry) :
    (pySortDesc key l).Pairwise (fun a b => key b ≤ key a) := by
  induction l with
  | nil => simp [pySortDesc]
  | cons x xs ih => exact pairwise_pyInsertDesc key x _ ih

theorem perm_pyInsertAsc (key : MoverEntry → Int) (x : MoverEntry)
    (l : List MoverEntry) : List.Perm (pyInsertAsc key x l) (x :: l) := by
  induction l with
  | nil => simp [pyInsertAsc]
  | cons y ys ih =>
    simp only [pyInsertAsc]
    split
    · exact (ih.cons y).trans (List.Perm.swap x y ys)
    · exact List.Perm.refl _

theorem perm_pyInsertDesc (key : MoverEntry → Int) (x : MoverEntry)
    (l : List MoverEntry) : List.Perm (pyInsertDesc key x l) (x :: l) := by
  induction l with
  | nil => simp [pyInsertDesc]
  | cons y ys ih =>
    simp only [pyInsertDesc]
    split
    · exact (ih.cons y).trans (List.Perm.swap x y ys)
    · exact List.Perm.refl _

theorem perm_pySortAsc (key : MoverEntry → Int) (l : List MoverEntry) :
    List.Perm (pySortAsc key l) l := by
  induction l with
  | nil => exact List.Perm.refl _
  | cons x xs ih => exact (perm_pyInsertAsc key x _).trans (ih.cons x)

theorem perm_pySortDesc (key : MoverEntry → Int) (l : List MoverEntry) :
    List.Perm (pySortDesc key l) l := by
  induction l with
  | nil => exact List.Perm.refl _
  | cons x xs ih => exact (perm_pyInsertDesc key x _).trans (ih.cons x)

/-- The two accumulating lists of the movers loop are the nonnegative- and
negative-change entries of the fetched data, in tracked order. -/
theorem moversLoop_eq_filter (fetch : String → Option (Option Int)) (ts : List String) :
    (moversLoop fetch ts).1
        = (collectMovers fetch ts).filter (fun m => 0 ≤ m.changeCenti) ∧
    (moversLoop fetch ts).2
        = (collectMovers fetch ts).filter (fun m => m.changeCenti < 0) := by
  induction ts with
  | nil => simp [moversLoop, collectMovers]
  | cons t ts ih =>
    simp only [moversLoop, collectMovers, List.filterMap_cons]
    cases hf : fetch t with
    | none =>
      simpa [collectMovers] using ih
    | some cp =>
      by_cases hc : (0 : Int) ≤ cp.getD 0
      · simp [collectMovers, List.filter_cons, hc, not_lt.2 hc, ih.1, ih.2]
      · simp [collectMovers, List.filter_cons, hc, not_le.1 hc, ih.1, ih.2]

/-- C9 (amended): `top_gainers` is the (at most three) tracked tickers with
nonnegative signed percent change, sorted descending; `top_losers` is the
(at most three) tracked tickers with negative signed percent change, sorted
ascending — so when fewer than three tracked tickers have negative change,
`top_losers` has fewer than three entries rather than the three smallest
overall. -/
theorem market_wrap_movers (fetch : String → Option (Option Int)) :
    topGainers fetch = (pySortDesc (fun m => m.changeCenti)
        ((collectMovers fetch trackedTickers).filter
          (fun m => 0 ≤ m.changeCenti))).take 3 ∧
    topLosers fetch = (pySortAsc (fun m => m.changeCenti)
        ((collectMovers fetch trackedTickers).filter
          (fun m => m.changeCenti < 0))).take 3 ∧
    (topGainers fetch).Pairwise (fun a b => b.changeCenti ≤ a.changeCenti) ∧
    (topLosers fetch).Pairwise (fun a b => a.changeCenti ≤ b.changeCenti) ∧
    List.Perm (pySortDesc (fun m => m.changeCenti) (moversLoop fetch trackedTickers).1)
      (moversLoop fetch trackedTickers).1 ∧
    List.Perm (pySortAsc (fun m => m.changeCenti) (moversLoop fetch trackedTickers).2)
      (moversLoop fetch trackedTickers).2 := by
  obtain ⟨h1, h2⟩ := moversLoop_eq_filter fetch trackedTickers
  refine ⟨by rw [topGainers, h1], by rw [topLosers, h2], ?_, ?_, ?_, ?_⟩
  · exact List.Pairwise.sublist (List.take_sublist 3 _) (pairwise_pySortDesc _ _)
  · exact List.Pairwise.sublist (List.take_sublist 3 _) (pairwise_pySortAsc _ _)
  · exact perm_pySortDesc _ _
  · exact perm_pySortAsc _ _

/-- C9 counterexample: when every tracked ticker has a positive percent
change, the code's `top_losers` is empty while the claim requires the three
smallest signed changes. -/
theorem topLosers_all_positive_counterexample :
    topLosers allPositiveFetch = [] ∧
    topLosersSpec allPositiveFetch
      = [⟨"AAPL", 100⟩, ⟨"TSLA", 200⟩, ⟨"GOOGL", 300⟩] ∧
    topLosers allPositiveFetch ≠ topLosersSpec allPositiveFetch := by
  refine ⟨by rfl, by rfl, by decide⟩

end FinMCP
